import Mathlib

/-!
Shallow embedding of the `keyring` vault core (src/vault/{keymgm,vault,driver,
delegated}.rs) and proofs about the claims of the specification.

Modelling conventions, used throughout:

* Machine integers and byte strings carry no arithmetic here beyond what the
  code uses, and are modelled as `Nat` / `List Nat`.
* Secp256k1 is modelled symbolically: a secret key is its scalar, a public key
  is the discrete logarithm of the point (`pubkeyOf d` stands for `G * d`);
  Diffie-Hellman shared points are identified by the product of the two
  scalars, which is exactly the information `g^(b*d)` carries.
* Hashes (`XpubIdentifier`, `Fingerprint`, SHA256, signature hashes) are
  idealized as injective constructors on their preimages; the negligible
  probability that random bytes parse as a valid BIP32 extended key is
  idealized to zero, as the specification itself does in scenario S6.
* The OS randomness drawn by `thread_rng().fill_bytes` is an explicit pool
  (`Rng`), consumed one value per `fill_bytes` call in source order.
* `&mut` parameters (the decryption key buffer) are threaded explicitly:
  each vault operation returns the post-call value of the buffer.
* A Rust panic (`expect` failure, out-of-bounds indexing) is recorded by the
  distinguished outcome `Err.panic`, kept separate from returned error values.
-/

/-- Asset identifiers (`AssetId`, 256-bit hashes in the source), modelled as
naturals. -/
abbrev AssetId := Nat

/-- BIP32 child numbers; a hardened child `i'` stands at `2^31 + i`, so the
`Ord` of the source's `ChildNumber` is the order on `Nat`. -/
abbrev ChildNumber := Nat

/-- `bitcoin::util::bip32::DerivationPath`: a sequence of child numbers. -/
abbrev DerivationPath := List ChildNumber

/-- Secp256k1 secret keys, modelled as their scalar. -/
abbrev SecretKey := Nat

/-- Secp256k1 public keys, modelled by the discrete logarithm of the point. -/
structure PublicKey where
  dlog : Nat
deriving DecidableEq

/-- `secp256k1::PublicKey::from_secret_key`: the point `G * d`. -/
def pubkeyOf (d : SecretKey) : PublicKey := ⟨d⟩

/-- The randomness pool behind `thread_rng()`: each `fill_bytes` call consumes
the next value (0 once the pool is exhausted). -/
abbrev Rng := List Nat

/-- Draw the next random value. Written with `headD`/`tail` so that the pair
is in constructor form even for a symbolic pool. -/
def rngNext (r : Rng) : Nat × Rng := (r.headD 0, r.tail)

/-- Modelled from the external `rust-bitcoin` library: an extended private key,
symbolically the generating seed entropy together with the derivation path
from that seed's master key. `derive_priv` appends paths, which captures the
BIP32 composition law the code relies on. SLIP-132 version bytes are dropped:
no claim depends on them. -/
structure ExtendedPrivKey where
  seed : Nat
  path : List ChildNumber
deriving DecidableEq

/-- Modelled from the external `rust-bitcoin` library: an extended public key,
the neutered image of the extended private key with the same coordinates. -/
structure ExtendedPubKey where
  seed : Nat
  path : List ChildNumber
deriving DecidableEq

/-- `ExtendedPrivKey::derive_priv`: BIP32 derivation along a (relative) path. -/
def ExtendedPrivKey.derive_priv (k : ExtendedPrivKey) (p : DerivationPath) :
    ExtendedPrivKey :=
  ⟨k.seed, k.path ++ p⟩

/-- `ExtendedPubKey::from_private` (neutering). The version-resolution failure
of the external library (`ResolverFailure`) has no inhabitant here. -/
def ExtendedPubKey.from_private (k : ExtendedPrivKey) : ExtendedPubKey :=
  ⟨k.seed, k.path⟩

/-- `XpubIdentifier`: the 160-bit hash of an extended public key, idealized as
an injective constructor. -/
structure XpubIdentifier where
  ofXpub : ExtendedPubKey
deriving DecidableEq

/-- `Fingerprint`: the 32-bit prefix of the `XpubIdentifier`, idealized as an
injective constructor. -/
structure Fingerprint where
  ofXpub : ExtendedPubKey
deriving DecidableEq

/-- `ExtendedPubKey::identifier`. -/
def ExtendedPubKey.identifier (x : ExtendedPubKey) : XpubIdentifier := ⟨x⟩

/-- `ExtendedPubKey::fingerprint`. -/
def ExtendedPubKey.fingerprint (x : ExtendedPubKey) : Fingerprint := ⟨x⟩

/-- Plaintext byte strings flowing through ElGamal: either a valid 78-byte
BIP32 extended-private-key serialization or keystream noise (the outcome of a
wrong-key decryption). Decoding noise fails: the negligible probability that
scrambled bytes parse as a valid xpriv is idealized to zero (spec S6). -/
inductive Bytes where
  | xpriv (k : ExtendedPrivKey)
  | noise
deriving DecidableEq

/-- `ExtendedPrivKey::encode`: the 78-byte BIP32 serialization. -/
def ExtendedPrivKey.encode (k : ExtendedPrivKey) : Bytes := .xpriv k

/-- `ExtendedPrivKey::decode`: parsing a 78-byte blob back. -/
def Bytes.decode : Bytes → Option ExtendedPrivKey
  | .xpriv k => some k
  | .noise => none

/-- Modelled from the spec (section 4.5), for the external `lnpbp::elgamal`
module: a ciphertext records the plaintext and the discrete logarithm
(`P.dlog * b`) of the Diffie-Hellman point from which the keystream was
derived. -/
structure Ciphertext where
  msg : Bytes
  tag : Nat
deriving DecidableEq

/-- Modelled from the spec (section 4.5): `elgamal::encrypt(m, P, b)`; the
caller separately remembers `G * b` as the unblinding key. -/
def elgamalEncrypt (m : Bytes) (p : PublicKey) (b : SecretKey) : Ciphertext :=
  ⟨m, p.dlog * b⟩

/-- Modelled from the spec (section 4.5): `elgamal::decrypt(c, d, U)`
re-derives the keystream from `U * d`; the plaintext comes back exactly when
the two shared points agree, and keystream noise otherwise. Our ciphertexts
are always well-formed (they come from `elgamalEncrypt`), so the length
errors of the real decryptor do not arise. -/
def elgamalDecrypt (c : Ciphertext) (d : SecretKey) (u : PublicKey) : Bytes :=
  if u.dlog * d = c.tag then c.msg else .noise

/-- Chain (network) parameter; only carried through, never inspected by a
claim. -/
abbrev Chain := Nat

/-- SLIP-132 script-application parameter; only carried through. -/
abbrev KeyApplication := Nat

/-- The error enum of vault/keymgm.rs together with the `RuntimeError`
variants of error.rs it gets wrapped into (`transport`, `message`,
`vaultDriver`), plus `panic`, which records a Rust panic (a failed `expect`
or an out-of-bounds indexing). A panic is not a returned error value; it is
kept as a distinguished outcome so that totality claims can be settled. -/
inductive Err where
  | privkeyGeneration
  | groupOverflow
  | hardenedDerivation
  | secretKeyCorrupted
  | notEnoughMemory
  | secp256k1Broken
  | derivationAlreadyUsed
  | notFound
  | assetIds (missing : Finset AssetId)
  | noOp
  | masterAccount
  | invalidDerivationPath
  | resolverFailure
  | transport
  | message
  | vaultDriver
  | panic
deriving DecidableEq

deriving instance DecidableEq for Except

/-- Whether an `Except` result is a success value. -/
def exceptOk : Except Err α → Bool
  | .ok _ => true
  | .error _ => false

/-- `UpdateMode` of vault/keymgm.rs. -/
inductive UpdateMode where
  | add
  | replace
  | removeIgnore
  | removeOrFail
deriving DecidableEq

/-- `KeysAccount` of vault/keymgm.rs: the encrypted-seed-plus-xpub capsule. -/
structure KeysAccount where
  xpubkey : ExtendedPubKey
  name : String
  details : String
  assets : Finset AssetId
  encrypted : Ciphertext
  unblinding : PublicKey
deriving DecidableEq

/-- `KeysAccount::identifier`. -/
def KeysAccount.identifier (a : KeysAccount) : XpubIdentifier :=
  a.xpubkey.identifier

/-- `KeysAccount::fingerprint`. -/
def KeysAccount.fingerprint (a : KeysAccount) : Fingerprint :=
  a.xpubkey.fingerprint

/-- `KeysAccount::xprivkey` (keymgm.rs lines 789-809): ElGamal-decrypt the
stored ciphertext, wipe the `&mut decryption_key` buffer by adding fresh
randomness to it, then parse the plaintext; parse failure surfaces as
`SecretKeyCorrupted` and happens after the wipe, exactly as in the source.
Returns the result, the post-call value of the decryption-key buffer, and the
remaining randomness (the success path draws once more to wipe the plaintext
buffer). -/
def KeysAccount.xprivkey (a : KeysAccount) (d : SecretKey) (rng : Rng) :
    Except Err ExtendedPrivKey × SecretKey × Rng :=
  let secretData := elgamalDecrypt a.encrypted d a.unblinding
  let (r, rng) := rngNext rng
  let d' := d + r
  match secretData.decode with
  | some k =>
      let (_, rng) := rngNext rng
      (.ok k, d', rng)
  | none => (.error .secretKeyCorrupted, d', rng)

/-- `KeysAccount::update` (keymgm.rs lines 813-866), translated arm by arm.
Note two artifacts of the source kept faithfully: in the `RemoveOrFail` arm
the emptiness test on the difference is `if diff.is_empty()` (so the error
fires when every requested asset is present), and the returned count is the
`usize` subtraction `self.assets.len() - assets.len()`, which in Rust
underflows when more assets are requested than held (here: truncated
subtraction). -/
def KeysAccount.update (a : KeysAccount) (name details : Option String)
    (assets : Option (Finset AssetId)) (updateMode : UpdateMode) :
    Except Err (Nat × KeysAccount) :=
  if name = none ∧ details = none ∧ assets = none then
    .error .noOp
  else
    let a := match name with
      | some n => { a with name := n }
      | none => a
    let a := match details with
      | some s => { a with details := s }
      | none => a
    match assets, updateMode with
    | some s, .add => .ok (s.card, { a with assets := a.assets ∪ s })
    | some s, .replace => .ok (a.assets.card + s.card, { a with assets := s })
    | some s, .removeIgnore =>
        .ok ((s.filter (fun x => x ∈ a.assets)).card,
          { a with assets := a.assets \ s })
    | some s, .removeOrFail =>
        let diff := s \ a.assets
        if diff = ∅ then
          .error (.assetIds diff)
        else
          .ok (a.assets.card - s.card, { a with assets := a.assets \ s })
    | none, _ => .ok (0, a)

/-- `KeysAccount::derive` (keymgm.rs lines 718-775): compute the encryption
key `G * decryption_key` before the buffer is wiped, decrypt the parent
xpriv, check it against the stored xpub, BIP32-derive, and re-encrypt under a
fresh blinding scalar. The negligible-probability scalar failures
(`SecretKey::from_slice`, tweak overflow) are idealized to success. -/
def KeysAccount.derive (a : KeysAccount) (derivation : DerivationPath)
    (name details : String) (assets : Finset AssetId) (d : SecretKey)
    (rng : Rng) : Except Err KeysAccount × SecretKey × Rng :=
  let encryptionKey := pubkeyOf d
  match a.xprivkey d rng with
  | (.error e, d', rng) => (.error e, d', rng)
  | (.ok masterXpriv, d', rng) =>
    if ExtendedPubKey.from_private masterXpriv ≠ a.xpubkey then
      (.error .secretKeyCorrupted, d', rng)
    else
      let xprivkey := masterXpriv.derive_priv derivation
      let xpubkey := ExtendedPubKey.from_private xprivkey
      let (rb, rng) := rngNext rng
      let blinding : SecretKey := rb
      let unblinding := pubkeyOf blinding
      let encrypted := elgamalEncrypt xprivkey.encode encryptionKey blinding
      let (_, rng) := rngNext rng
      (.ok ⟨xpubkey, name, details, assets, encrypted, unblinding⟩, d', rng)

/-- SHA256 digests signed by the vault, idealized as injective constructors on
their preimages (the compressed public key of an xpub, or opaque data). -/
inductive Digest where
  | sha256OfPubkey (x : ExtendedPubKey)
  | sha256OfData (data : List Nat)
deriving DecidableEq

/-- `bitcoin::TxOut`; scripts are opaque byte strings, modelled as naturals. -/
structure TxOut where
  script_pubkey : Nat
deriving DecidableEq

/-- `bitcoin::OutPoint`. -/
structure OutPoint where
  txid : Nat
  vout : Nat
deriving DecidableEq

/-- `bitcoin::TxIn`; only the consumed outpoint is inspected by the vault. -/
structure TxIn where
  previous_output : OutPoint
deriving DecidableEq

/-- `bitcoin::Transaction`, reduced to the fields the vault reads. -/
structure Transaction where
  input : List TxIn
  output : List TxOut
deriving DecidableEq

/-- Messages signed with ECDSA: a SHA256 digest (`sign_key`/`sign_data`) or
the legacy signature hash `tx.signature_hash(index, script, ty)` of
`sign_psbt`, idealized as an injective constructor. -/
inductive SigMsg where
  | digest (d : Digest)
  | hash (tx : Transaction) (index : Nat) (script : Nat) (ty : Nat)
deriving DecidableEq

/-- RFC6979 deterministic ECDSA signatures, symbolically the signed message
together with the signing key. -/
structure Signature where
  msg : SigMsg
  key : ExtendedPrivKey
deriving DecidableEq

/-- `KeysAccount::sign_digest` (keymgm.rs lines 869-891): decrypt the xpriv
(wiping the decryption-key buffer), sign the digest, wipe the xpriv copy
(one more randomness draw). `Message::from_slice` never fails on a 32-byte
digest and is modelled total. -/
def KeysAccount.sign_digest (a : KeysAccount) (digest : Digest)
    (d : SecretKey) (rng : Rng) : Except Err Signature × SecretKey × Rng :=
  match a.xprivkey d rng with
  | (.error e, d', rng) => (.error e, d', rng)
  | (.ok xprivkey, d', rng) =>
    let signature : Signature := ⟨.digest digest, xprivkey⟩
    let (_, rng) := rngNext rng
    (.ok signature, d', rng)

/-- `KeysAccount::with` (keymgm.rs lines 659-711): fresh master account from
entropy. The five `fill_bytes` calls of the source are consumed in order
(seed, clearing the copy, wiping the seed, the blinding scalar, wiping the
blinding source); `new_master` and the version resolution of the external
library are idealized total, so the `Result` is always `Ok`. -/
def KeysAccount.with (name details : String) (assets : Finset AssetId)
    (chain : Chain) (application : KeyApplication)
    (encryption_key : PublicKey) (rng : Rng) :
    Except Err KeysAccount × Rng :=
  let (r1, rng) := rngNext rng
  let seed := r1
  let (_, rng) := rngNext rng
  let xprivkey : ExtendedPrivKey := ⟨seed, []⟩
  let (_, rng) := rngNext rng
  let xpubkey := ExtendedPubKey.from_private xprivkey
  let (rb, rng) := rngNext rng
  let blinding : SecretKey := rb
  let unblinding := pubkeyOf blinding
  let encrypted := elgamalEncrypt xprivkey.encode encryption_key blinding
  let (_, rng) := rngNext rng
  (.ok ⟨xpubkey, name, details, assets, encrypted, unblinding⟩, rng)

/-- Lexicographic comparison of derivation paths: the `Ord` of the
`Vec<ChildNumber>` keys of the `BTreeMap`. -/
def pathCmp : DerivationPath → DerivationPath → Ordering
  | [], [] => .eq
  | [], _ :: _ => .lt
  | _ :: _, [] => .gt
  | a :: xs, b :: ys =>
    match compare a b with
    | .eq => pathCmp xs ys
    | o => o

/-- `Keyring` of vault/keymgm.rs: master account, optional key source, and the
`BTreeMap` of sub-accounts kept as an association list sorted by `pathCmp`. -/
structure Keyring where
  master_account : KeysAccount
  key_source : Option (Fingerprint × DerivationPath)
  sub_accounts : List (DerivationPath × KeysAccount)
deriving DecidableEq

/-- `BTreeMap::insert` on the sorted association list (replacing an existing
key, inserting in key order otherwise). -/
def btreeInsert (k : DerivationPath) (v : KeysAccount) :
    List (DerivationPath × KeysAccount) → List (DerivationPath × KeysAccount)
  | [] => [(k, v)]
  | (k', v') :: rest =>
    match pathCmp k k' with
    | .lt => (k, v) :: (k', v') :: rest
    | .eq => (k, v) :: rest
    | .gt => (k', v') :: btreeInsert k v rest

/-- `Keyring::with` (keymgm.rs lines 221-242). -/
def Keyring.with (name details : String) (chain : Chain)
    (application : KeyApplication)
    (key_source : Option (Fingerprint × DerivationPath))
    (encryption_key : PublicKey) (rng : Rng) : Except Err Keyring × Rng :=
  match KeysAccount.with name details ∅ chain application encryption_key rng with
  | (.error e, rng) => (.error e, rng)
  | (.ok master_account, rng) => (.ok ⟨master_account, key_source, []⟩, rng)

/-- `Keyring::identifier`. -/
def Keyring.identifier (kr : Keyring) : XpubIdentifier :=
  kr.master_account.identifier

/-- `Keyring::fingerprint`. -/
def Keyring.fingerprint (kr : Keyring) : Fingerprint :=
  kr.master_account.fingerprint

/-- `Keyring::account_by_id` (keymgm.rs lines 271-283): master first, then the
first matching sub-account. -/
def Keyring.account_by_id (kr : Keyring) (key_id : XpubIdentifier) :
    Option KeysAccount :=
  if kr.identifier = key_id then
    some kr.master_account
  else
    (kr.sub_accounts.find? (fun pa => pa.2.identifier == key_id)).map Prod.snd

/-- `Keyring::derivation_paths` (keymgm.rs lines 612-617): the master (empty)
path and every sub-account path; as a `BTreeSet` the master path sorts
first. -/
def Keyring.derivation_paths (kr : Keyring) : List DerivationPath :=
  [] :: kr.sub_accounts.map Prod.fst

/-- `Keyring::all_accounts` (keymgm.rs lines 603-608): master plus every
sub-account, in `BTreeMap` order (the empty master path sorts before every
other path, and `sub_accounts` is kept sorted). -/
def Keyring.all_accounts (kr : Keyring) :
    List (DerivationPath × KeysAccount) :=
  ([], kr.master_account) :: kr.sub_accounts

/-- One step of the stable insertion sort behind `slice::sort_by`:
`revSorted` is the already-sorted prefix in reversed order, and the incoming
element moves left past exactly those elements the comparator reports
`Greater`. Rust applies insertion sort to slices shorter than 20 elements,
which covers every list this development sorts; for a consistent comparator
this is ordinary stable sorting. -/
def insRev (cmp : α → α → Ordering) (a : α) : List α → List α
  | [] => [a]
  | b :: rest =>
    if cmp b a = .gt then b :: insRev cmp a rest else a :: b :: rest

/-- `slice::sort_by` as the stable insertion sort described at `insRev`. -/
def rustSortBy (cmp : α → α → Ordering) (l : List α) : List α :=
  (l.foldl (fun r a => insRev cmp a r) []).reverse

/-- The comparator the source passes to `sorted.sort_by` in
`Keyring::create_account` (keymgm.rs lines 359-365): two present candidates
compare by relative-path length, every pair involving `None` reports
`Equal`. -/
def candidateCmp :
    Option (DerivationPath × KeysAccount) →
    Option (DerivationPath × KeysAccount) → Ordering
  | some (p1, _), some (p2, _) => compare p1.length p2.length
  | _, _ => .eq

/-- `Keyring::create_account` (keymgm.rs lines 327-376): reject a used path,
map every account to `Some (relative path, account)` when its stored path is
a strict prefix of the target (`None` otherwise), sort with `candidateCmp`,
take the first element (the source double-`expect`s it: a `None` there is the
panic outcome), derive from it and insert under the absolute path. Returns
the created account, the updated keyring, the post-call decryption-key
buffer, and the remaining randomness. -/
def Keyring.create_account (kr : Keyring) (derivation : DerivationPath)
    (name details : String) (assets : Finset AssetId) (d : SecretKey)
    (rng : Rng) : Except Err KeysAccount × Keyring × SecretKey × Rng :=
  if kr.derivation_paths.contains derivation then
    (.error .derivationAlreadyUsed, kr, d, rng)
  else
    let candidates := kr.all_accounts.map (fun pa =>
      if pa.1.length < derivation.length ∧
          pa.1 = derivation.take pa.1.length then
        some (derivation.drop pa.1.length, pa.2)
      else
        none)
    let sorted := rustSortBy candidateCmp candidates
    match sorted.head? with
    | none => (.error .panic, kr, d, rng)
    | some none => (.error .panic, kr, d, rng)
    | some (some (relPath, acc)) =>
      match acc.derive relPath name details assets d rng with
      | (.error e, d', rng) => (.error e, kr, d', rng)
      | (.ok account, d', rng) =>
        (.ok account,
          { kr with sub_accounts := btreeInsert derivation account kr.sub_accounts },
          d', rng)

/-- A PSBT input (`bitcoin::util::psbt::Input`), reduced to the fields
`Vault::sign_psbt` reads and writes. The `BTreeMap`s are association lists;
`partial_sigs` maps a public key to the DER signature together with the one
trailing sighash byte the code pushes. -/
structure PsbtInput where
  bip32_derivation : List (PublicKey × Fingerprint × DerivationPath)
  non_witness_utxo : Option Transaction
  partial_sigs : List (PublicKey × Signature × Nat)
  sighash_type : Option Nat
deriving DecidableEq

/-- `PartiallySignedTransaction`: the global unsigned transaction and the
per-input maps. -/
structure Psbt where
  unsigned_tx : Transaction
  inputs : List PsbtInput
deriving DecidableEq

/-- `BTreeMap::insert` on `partial_sigs`, keyed by the public key. -/
def sigInsert (k : PublicKey) (v : Signature × Nat) :
    List (PublicKey × Signature × Nat) →
    List (PublicKey × Signature × Nat)
  | [] => [(k, v)]
  | (k', v') :: rest =>
    match compare k.dlog k'.dlog with
    | .lt => (k, v) :: (k', v') :: rest
    | .eq => (k, v) :: rest
    | .gt => (k', v') :: sigInsert k v rest

/-- Lookup in `partial_sigs`. -/
def sigGet (k : PublicKey) :
    List (PublicKey × Signature × Nat) → Option (Signature × Nat)
  | [] => none
  | (k', v') :: rest => if k' = k then some v' else sigGet k rest

/-- The storage driver of vault/driver.rs, as the vault observes it: a
behavior flag saying whether the backing store currently accepts writes, and
the log of successfully stored keyring sequences (the last entry is the
persisted state). -/
structure Driver where
  storeFails : Bool
  stored : List (List Keyring)
deriving DecidableEq

/-- `Driver::store`: append to the log on success, report the opaque driver
error otherwise. -/
def Driver.store (drv : Driver) (keyrings : List Keyring) :
    Except Err Driver :=
  if drv.storeFails then
    .error .vaultDriver
  else
    .ok { drv with stored := drv.stored ++ [keyrings] }

/-- `Vault` of vault/vault.rs: the owned driver handle and the in-memory
keyring sequence. -/
structure Vault where
  driver : Driver
  keyrings : List Keyring
deriving DecidableEq

/-- `Vault::keyring_by_id` (vault.rs lines 55-57): first keyring whose master
identifier matches. -/
def Vault.keyring_by_id (v : Vault) (key_id : XpubIdentifier) :
    Option Keyring :=
  v.keyrings.find? (fun kr => kr.identifier == key_id)

/-- `Vault::account_by_id` (vault.rs lines 68-74): scan keyrings in order,
inside each the master first and then the sub-accounts. -/
def Vault.account_by_id (v : Vault) (key_id : XpubIdentifier) :
    Option KeysAccount :=
  v.keyrings.findSome? (fun kr => kr.account_by_id key_id)

/-- `AccountInfo` of rpc/types.rs (the `application` field is always `None`
in the source and is omitted). -/
structure AccountInfo where
  id : XpubIdentifier
  name : String
  details : Option String
  key_id : XpubIdentifier
  fingerprint : Fingerprint
  assets : Finset AssetId
  key_source : Option (Fingerprint × DerivationPath)
deriving DecidableEq

/-- `From<&KeysAccount> for AccountInfo` (rpc/types.rs lines 60-75). -/
def AccountInfo.ofAccount (a : KeysAccount) : AccountInfo :=
  { id := a.identifier
    name := a.name
    details := if a.details.length = 0 then none else some a.details
    key_id := a.identifier
    fingerprint := a.fingerprint
    assets := a.assets
    key_source := none }

/-- `Vault::seed` (vault.rs lines 96-121): build a fresh keyring, push it,
then store. Note that the push precedes the store call: on a driver failure
the new keyring stays in the in-memory sequence. -/
def Vault.seed (v : Vault) (name : String) (description : Option String)
    (chain : Chain) (application : KeyApplication)
    (encryption_key : PublicKey) (rng : Rng) :
    Except Err Unit × Vault × Rng :=
  let description := description.getD ""
  match Keyring.with name description chain application none encryption_key
      rng with
  | (.error e, rng) => (.error e, v, rng)
  | (.ok keyring, rng) =>
    let keyrings := v.keyrings ++ [keyring]
    match v.driver.store keyrings with
    | .error e => (.error e, { v with keyrings := keyrings }, rng)
    | .ok drv => (.ok (), ⟨drv, keyrings⟩, rng)

/-- The `keyring_by_id_mut` + `create_account` step of `Vault::derive`: walk
the keyring sequence, update the first keyring whose master identifier equals
`root` in place; report `NotFound` when none matches. -/
def deriveInKeyrings (krs : List Keyring) (root : XpubIdentifier)
    (path : DerivationPath) (name details : String)
    (assets : Finset AssetId) (d : SecretKey) (rng : Rng) :
    Except Err (KeysAccount × List Keyring) × SecretKey × Rng :=
  match krs with
  | [] => (.error .notFound, d, rng)
  | kr :: rest =>
    if kr.identifier = root then
      match kr.create_account path name details assets d rng with
      | (.error e, _, d', rng) => (.error e, d', rng)
      | (.ok acc, kr', d', rng) => (.ok (acc, kr' :: rest), d', rng)
    else
      match deriveInKeyrings rest root path name details assets d rng with
      | (.error e, d', rng) => (.error e, d', rng)
      | (.ok (acc, rest'), d', rng) => (.ok (acc, kr :: rest'), d', rng)

/-- `Vault::derive` (vault.rs lines 123-143): locate the keyring by its
master identifier (`NotFound` otherwise), create the sub-account, then store;
the sub-account insertion precedes the store call. The optional details
value is forwarded to `create_account`; its rendering is modelled by the
empty-string default also used by `Vault::seed`, as no claim inspects it. -/
def Vault.derive (v : Vault) (root : XpubIdentifier)
    (path : DerivationPath) (name : String) (details : Option String)
    (assets : Finset AssetId) (d : SecretKey) (rng : Rng) :
    Except Err AccountInfo × Vault × SecretKey × Rng :=
  match deriveInKeyrings v.keyrings root path name (details.getD "") assets
      d rng with
  | (.error e, d', rng) => (.error e, v, d', rng)
  | (.ok (account, keyrings), d', rng) =>
    let info := AccountInfo.ofAccount account
    match v.driver.store keyrings with
    | .error e => (.error e, { v with keyrings := keyrings }, d', rng)
    | .ok drv => (.ok info, ⟨drv, keyrings⟩, d', rng)

/-- `Vault::xpub` (vault.rs lines 145-150). -/
def Vault.xpub (v : Vault) (id : XpubIdentifier) :
    Except Err ExtendedPubKey :=
  match v.account_by_id id with
  | none => .error .notFound
  | some a => .ok a.xpubkey

/-- `Vault::xpriv` (vault.rs lines 152-161). -/
def Vault.xpriv (v : Vault) (id : XpubIdentifier) (d : SecretKey)
    (rng : Rng) : Except Err ExtendedPrivKey × SecretKey × Rng :=
  match v.account_by_id id with
  | none => (.error .notFound, d, rng)
  | some a => a.xprivkey d rng

/-- `Vault::sign_key` (vault.rs lines 209-225): sign the SHA256 of the
account's compressed public key. -/
def Vault.sign_key (v : Vault) (id : XpubIdentifier) (d : SecretKey)
    (rng : Rng) : Except Err Signature × SecretKey × Rng :=
  match v.account_by_id id with
  | none => (.error .notFound, d, rng)
  | some a => a.sign_digest (.sha256OfPubkey a.xpubkey) d rng

/-- `Vault::sign_data` (vault.rs lines 227-236): sign `SHA256(data)`. -/
def Vault.sign_data (v : Vault) (id : XpubIdentifier) (data : List Nat)
    (d : SecretKey) (rng : Rng) : Except Err Signature × SecretKey × Rng :=
  match v.account_by_id id with
  | none => (.error .notFound, d, rng)
  | some a => a.sign_digest (.sha256OfData data) d rng

/-- The inner `for (pubkey, (fingerprint, derivation))` loop of
`Vault::sign_psbt` (vault.rs lines 173-204) over one input's
`bip32_derivation` entries, threading the mutated input, the decryption-key
buffer and the randomness. Where an entry's fingerprint matches a keyring,
the master xpriv is decrypted (wiping the buffer) and derived; then the
source checks `non_witness_utxo` (`Transport` when absent), indexes
`tx.input[index]` and the utxo's `output[vout]` — both indexings panic when
out of range (`Err.panic`) — and finally records the signature and the
sighash type. -/
def signPsbtEntries (keyrings : List Keyring) (tx : Transaction)
    (index : Nat) (entries : List (PublicKey × Fingerprint × DerivationPath))
    (inp : PsbtInput) (d : SecretKey) (rng : Rng) :
    Except Err PsbtInput × SecretKey × Rng :=
  match entries with
  | [] => (.ok inp, d, rng)
  | (pubkey, fingerprint, derivation) :: rest =>
    match keyrings.find? (fun kr => kr.fingerprint == fingerprint) with
    | none => signPsbtEntries keyrings tx index rest inp d rng
    | some keyring =>
      let account := keyring.master_account
      match account.xprivkey d rng with
      | (.error e, d', rng) => (.error e, d', rng)
      | (.ok xpriv0, d', rng) =>
        let xpriv := xpriv0.derive_priv derivation
        match inp.non_witness_utxo with
        | none => (.error .transport, d', rng)
        | some utxo =>
          match tx.input[index]? with
          | none => (.error .panic, d', rng)
          | some txin =>
            match utxo.output[txin.previous_output.vout]? with
            | none => (.error .panic, d', rng)
            | some out =>
              let signature : Signature :=
                ⟨.hash tx index out.script_pubkey 1, xpriv⟩
              let inp :=
                { inp with
                  sighash_type := some 1
                  partial_sigs := sigInsert pubkey (signature, 1)
                    inp.partial_sigs }
              signPsbtEntries keyrings tx index rest inp d' rng

/-- The outer `for (index, inp)` loop of `Vault::sign_psbt` over the PSBT
inputs. -/
def signPsbtInputs (keyrings : List Keyring) (tx : Transaction)
    (index : Nat) (inputs : List PsbtInput) (d : SecretKey) (rng : Rng) :
    Except Err (List PsbtInput) × SecretKey × Rng :=
  match inputs with
  | [] => (.ok [], d, rng)
  | inp :: rest =>
    match signPsbtEntries keyrings tx index inp.bip32_derivation inp d
        rng with
    | (.error e, d', rng) => (.error e, d', rng)
    | (.ok inp', d', rng) =>
      match signPsbtInputs keyrings tx (index + 1) rest d' rng with
      | (.error e, d'', rng) => (.error e, d'', rng)
      | (.ok rest', d'', rng) => (.ok (inp' :: rest'), d'', rng)

/-- `Vault::sign_psbt` (vault.rs lines 163-207). -/
def Vault.sign_psbt (v : Vault) (psbt : Psbt) (d : SecretKey) (rng : Rng) :
    Except Err Psbt × SecretKey × Rng :=
  match signPsbtInputs v.keyrings psbt.unsigned_tx 0 psbt.inputs d rng with
  | (.error e, d', rng) => (.error e, d', rng)
  | (.ok inputs, d', rng) => (.ok { psbt with inputs := inputs }, d', rng)

/-- The delegated driver's config (vault/delegated.rs lines 22-47): the two
externally supplied callbacks over raw byte buffers. -/
structure DelegatedConfig where
  load_cb : List Nat → List Nat
  save_cb : List Nat → List Nat

/-- `DelegatedDriver` (vault/delegated.rs): the config plus, for this model,
the list of byte buffers the driver has passed to either callback so far —
an invocation of a callback would extend it. -/
structure DelegatedDriver where
  config : DelegatedConfig
  calls : List (List Nat)

/-- `DelegatedDriver::load` (delegated.rs lines 74-77), as written: it
returns `Ok(vec![])` and never invokes `config.load_cb`. -/
def DelegatedDriver.load (drv : DelegatedDriver) :
    Except Err (List Keyring) × DelegatedDriver :=
  (.ok [], drv)

/-- `DelegatedDriver::store` (delegated.rs lines 79-83), as written: it
drops its argument, returns `Ok(())` and never invokes `config.save_cb`. -/
def DelegatedDriver.store (drv : DelegatedDriver)
    (accounts : List Keyring) : Except Err Unit × DelegatedDriver :=
  (.ok (), drv)

/-- The ancestor selection as the spec words it (section 4.3.1), written from
the spec for comparison with `Keyring.create_account`: among the accounts
whose stored path is a strict prefix of the target, the one whose stored path
is longest, returned with that stored path. -/
def specNearestAncestor (kr : Keyring) (derivation : DerivationPath) :
    Option (DerivationPath × KeysAccount) :=
  (kr.all_accounts.filter (fun pa =>
      decide (pa.1.length < derivation.length) &&
        (pa.1 == derivation.take pa.1.length))).foldl
    (fun best pa =>
      match best with
      | none => some pa
      | some b => if b.1.length < pa.1.length then some pa else some b)
    none

/-- The spec-side condition of C8: some keyring master account or sub-account
of the vault has the given identifier. -/
def hasAccount (v : Vault) (id : XpubIdentifier) : Bool :=
  v.keyrings.any (fun kr =>
    kr.identifier == id ||
      kr.sub_accounts.any (fun pa => pa.2.identifier == id))

/-- Concrete account holding the single asset `0`; its key material plays no
role in the update claims. -/
def accA : KeysAccount :=
  { xpubkey := ⟨0, []⟩
    name := "a"
    details := ""
    assets := {0}
    encrypted := ⟨.xpriv ⟨0, []⟩, 0⟩
    unblinding := ⟨0⟩ }

/-- Concrete master account of seed 10, encrypted under `G * 1` with blinding
scalar 3. -/
def masterB : KeysAccount :=
  { xpubkey := ⟨10, []⟩
    name := "m"
    details := ""
    assets := ∅
    encrypted := ⟨.xpriv ⟨10, []⟩, 3⟩
    unblinding := ⟨3⟩ }

/-- Sub-account of `masterB` at path `m/0`, encrypted under `G * 1` with
blinding scalar 5. -/
def subB0 : KeysAccount :=
  { xpubkey := ⟨10, [0]⟩
    name := "s0"
    details := ""
    assets := ∅
    encrypted := ⟨.xpriv ⟨10, [0]⟩, 5⟩
    unblinding := ⟨5⟩ }

/-- Sub-account of `masterB` at path `m/5`, encrypted under `G * 2` with
blinding scalar 7 (so decryption key 2 opens it, while the master needs
decryption key 1). -/
def subB5 : KeysAccount :=
  { xpubkey := ⟨10, [5]⟩
    name := "s5"
    details := ""
    assets := ∅
    encrypted := ⟨.xpriv ⟨10, [5]⟩, 14⟩
    unblinding := ⟨7⟩ }

/-- Concrete keyring with sub-accounts at `m/0` and `m/5`. -/
def krB : Keyring := ⟨masterB, none, [([0], subB0), ([5], subB5)]⟩

/-- Concrete master account of seed 20, encrypted under `G * 1` with blinding
scalar 3. -/
def masterC : KeysAccount :=
  { xpubkey := ⟨20, []⟩
    name := "c"
    details := ""
    assets := ∅
    encrypted := ⟨.xpriv ⟨20, []⟩, 3⟩
    unblinding := ⟨3⟩ }

/-- Concrete keyring around `masterC`, no sub-accounts. -/
def krC : Keyring := ⟨masterC, none, []⟩

/-- Concrete vault holding `krC` over a driver that accepts writes. -/
def vaultC : Vault := ⟨⟨false, []⟩, [krC]⟩

/-- Concrete vault holding `krB` over a driver that accepts writes. -/
def vaultB : Vault := ⟨⟨false, []⟩, [krB]⟩

/-- Concrete empty vault whose driver rejects every store. -/
def failVault : Vault := ⟨⟨true, []⟩, []⟩

/-- A non-witness utxo with exactly one output, script 99. -/
def utxo0 : Transaction := ⟨[], [⟨99⟩]⟩

/-- A non-witness utxo with exactly one output, script 98. -/
def utxo1 : Transaction := ⟨[], [⟨98⟩]⟩

/-- A one-input unsigned transaction consuming vout 0. -/
def tx1 : Transaction := ⟨[⟨⟨77, 0⟩⟩], []⟩

/-- A two-input unsigned transaction, both consuming vout 0. -/
def tx2 : Transaction := ⟨[⟨⟨77, 0⟩⟩, ⟨⟨78, 0⟩⟩], []⟩

/-- A one-input unsigned transaction consuming vout 3. -/
def txBad : Transaction := ⟨[⟨⟨77, 3⟩⟩], []⟩

/-- PSBT input whose single `bip32_derivation` entry carries `masterC`'s
fingerprint. -/
def inp0 : PsbtInput :=
  ⟨[(⟨50⟩, masterC.fingerprint, [0])], some utxo0, [], none⟩

/-- A second such input, derivation path `1`. -/
def inp1 : PsbtInput :=
  ⟨[(⟨51⟩, masterC.fingerprint, [1])], some utxo1, [], none⟩

/-- One-input PSBT with one matching derivation entry. -/
def psbtOne : Psbt := ⟨tx1, [inp0]⟩

/-- Two-input PSBT, each input with one matching derivation entry. -/
def psbtTwo : Psbt := ⟨tx2, [inp0, inp1]⟩

/-- PSBT whose consumed outpoint names vout 3 while its non-witness utxo has
a single output. -/
def psbtBad : Psbt := ⟨txBad, [inp0]⟩

/-- PSBT with no inputs at all. -/
def emptyPsbt : Psbt := ⟨⟨[], []⟩, []⟩

/-- C1: the claim reads `RemoveOrFail` as: any absent requested asset makes
the call fail with `AssetIds(missing)` and no partial update, all-present
requests succeed removing everything. The code inverts the emptiness test on
the difference: on `accA` (assets `{0}`) requesting removal of `{0}` (all
present) it returns `Err(AssetIds(∅))`, and requesting removal of `{1}`
(absent) it returns `Ok(0)` leaving the assets as they were -- the exact
opposite of the claim and of the function's own documentation and doctest. -/
theorem c1_removeOrFail_inverted :
    accA.update none none (some {0}) .removeOrFail = .error (.assetIds ∅) ∧
    accA.update none none (some {1}) .removeOrFail = .ok (0, accA) := by
  decide

/-- C2: the claim (and the source's own comment) says the sub-account is
derived from the account whose stored path is the longest strict prefix of
the target. On `krB` (sub-accounts at `m/0` and `m/5`) with target `m/5/1`,
the comparator reports `Equal` around the `None` candidate sitting between
the two prefixes, the stable sort leaves the master first, and the code
derives from the master along the full path `5/1` instead of from the `m/5`
account along `1`: with decryption key 2 (which opens `m/5` but not the
master) the call fails with `SecretKeyCorrupted`, while the spec's selection
(`specNearestAncestor`) names `m/5`, from which the same derivation
succeeds. -/
theorem c2_ancestor_selection :
    (rustSortBy candidateCmp (krB.all_accounts.map (fun pa =>
        if pa.1.length < ([5, 1] : DerivationPath).length ∧
            pa.1 = ([5, 1] : DerivationPath).take pa.1.length then
          some (([5, 1] : DerivationPath).drop pa.1.length, pa.2)
        else none))).head? = some (some ([5, 1], masterB)) ∧
    (krB.create_account [5, 1] "n" "" ∅ 2 [9, 9, 9, 9]).1 =
      .error .secretKeyCorrupted ∧
    specNearestAncestor krB [5, 1] = some ([5], subB5) ∧
    (subB5.derive [1] "n" "" ∅ 2 [9, 9, 9, 9]).1 =
      .ok ⟨⟨10, [5, 1]⟩, "n", "", ∅, ⟨.xpriv ⟨10, [5, 1]⟩, 18⟩, ⟨9⟩⟩ := by
  decide

/-- C3: on the one-input PSBT the signing loop behaves as claimed (DER
signature over the legacy sighash of the utxo's script at the consumed vout,
one trailing `SIGHASH_ALL` byte, sighash type set); but on the two-input
PSBT the first signature's `xprivkey` call wipes the decryption-key buffer,
the second input's decryption yields noise, and the whole method returns
`SecretKeyCorrupted` instead of the claimed per-entry signatures. -/
theorem c3_sign_psbt_eval :
    (vaultC.sign_psbt psbtOne 1 [5, 5]).1 =
      .ok ⟨tx1, [⟨[(⟨50⟩, masterC.fingerprint, [0])], some utxo0,
        [(⟨50⟩, ⟨.hash tx1 0 99 1, ⟨20, [0]⟩⟩, 1)], some 1⟩]⟩ ∧
    (vaultC.sign_psbt psbtTwo 1 [5, 5, 5, 5]).1 =
      .error .secretKeyCorrupted := by
  decide

/-- C4: the claim says every vault method wipes the decryption-key buffer,
explicitly including PSBTs in which no `bip32_derivation` fingerprint
matches (and `sign_psbt` is claimed to wipe once, on entry). On a PSBT with
no inputs, and on one whose only entry's fingerprint matches no keyring,
`sign_psbt` returns with the buffer exactly equal to its pre-call value 7:
the wipe only ever happens inside `KeysAccount::xprivkey`. -/
theorem c4_no_wipe_without_match :
    Vault.sign_psbt vaultC emptyPsbt 7 [5, 5] = (.ok emptyPsbt, 7, [5, 5]) ∧
    (Vault.sign_psbt vaultC
      ⟨tx1, [⟨[(⟨50⟩, ⟨⟨999, []⟩⟩, [0])], some utxo0, [], none⟩]⟩
      7 [5, 5]).2.1 = 7 := by
  decide

/-- C5: the claim says failures surface as error values and never as panics;
but on a PSBT whose consumed outpoint's vout (3) is out of range for the
non-witness utxo's single output, `sign_psbt` reaches the unchecked indexing
`...output[vout]` and panics (the model's `Err.panic` outcome). -/
theorem c5_sign_psbt_panics :
    (vaultC.sign_psbt psbtBad 1 [5, 5]).1 = .error .panic := by
  decide

/-- C6 counterexample: on the empty vault with a failing driver, `seed`
returns an error as claimed, but the in-memory keyring sequence is NOT left
unchanged: the freshly created keyring stays (length 1, was 0), because the
push precedes the store call. -/
theorem c6_counterexample :
    exceptOk (failVault.seed "A" none 0 0 ⟨1⟩ [5, 5, 5, 5, 5]).1 = false ∧
    (failVault.seed "A" none 0 0 ⟨1⟩ [5, 5, 5, 5, 5]).2.1.keyrings.length
      = 1 := by
  decide

/-- C9: the claim says delegated `load`/`store` invoke the externally
supplied callbacks and that `load` returns the sequence defined by the
delegate's bytes. As written, both methods are stubs: for every driver value
(so for every choice of callbacks) `load` returns the constant `Ok(vec![])`
and `store` returns `Ok(())`, neither touching the callback-invocation
log. -/
theorem c9_delegated_stub (drv : DelegatedDriver) (accounts : List Keyring) :
    drv.load = (.ok [], drv) ∧ drv.store accounts = (.ok (), drv) :=
  ⟨rfl, rfl⟩

/-- Helper: `KeysAccount.xprivkey` either fails with `SecretKeyCorrupted` or
succeeds; in both cases the decryption-key buffer comes back wiped by the
next randomness draw. -/
theorem xprivkey_cases (a : KeysAccount) (d : SecretKey) (rng : Rng) :
    a.xprivkey d rng =
      (.error .secretKeyCorrupted, d + rng.headD 0, rng.tail) ∨
    ∃ k, a.xprivkey d rng = (.ok k, d + rng.headD 0, rng.tail.tail) := by
  unfold KeysAccount.xprivkey
  simp only [rngNext]
  cases (elgamalDecrypt a.encrypted d a.unblinding).decode with
  | none => left; rfl
  | some k => right; exact ⟨k, rfl⟩

/-- Helper: `KeysAccount.derive` never reports `NotFound`. -/
theorem derive_ne_notFound (a : KeysAccount) (p : DerivationPath)
    (n dt : String) (s : Finset AssetId) (d : SecretKey) (rng : Rng) :
    (a.derive p n dt s d rng).1 ≠ .error .notFound := by
  rcases xprivkey_cases a d rng with h | ⟨k, h⟩ <;>
    simp only [KeysAccount.derive, h] <;> intro hc
  · simp at hc
  · split at hc <;> simp_all

/-- Helper: `Keyring.create_account` never reports `NotFound`. -/
theorem create_account_ne_notFound (kr : Keyring) (p : DerivationPath)
    (n dt : String) (s : Finset AssetId) (d : SecretKey) (rng : Rng) :
    (kr.create_account p n dt s d rng).1 ≠ .error .notFound := by
  simp only [Keyring.create_account]
  split
  · simp
  · split
    · simp
    · simp
    · rename_i relPath acc heq
      have h := derive_ne_notFound acc relPath n dt s d rng
      rcases hd : acc.derive relPath n dt s d rng with ⟨res, d', rng'⟩
      rw [hd] at h
      cases res with
      | error e => exact h
      | ok acct => simp

/-- Helper: `deriveInKeyrings` reports `NotFound` exactly when no keyring's
master identifier matches the requested root. -/
theorem deriveInKeyrings_notFound (krs : List Keyring)
    (root : XpubIdentifier) (path : DerivationPath) (name det : String)
    (assets : Finset AssetId) (d : SecretKey) (rng : Rng) :
    (deriveInKeyrings krs root path name det assets d rng).1 =
        .error .notFound ↔
      ∀ kr ∈ krs, kr.identifier ≠ root := by
  induction krs with
  | nil => simp [deriveInKeyrings]
  | cons kr rest ih =>
    by_cases h : kr.identifier = root
    · have hrhs : ¬ ∀ k ∈ kr :: rest, k.identifier ≠ root := by
        intro hall
        exact hall kr (List.mem_cons_self kr rest) h
      simp only [deriveInKeyrings, if_pos h]
      rcases hc : kr.create_account path name det assets d rng with
        ⟨res, kr', d', rng'⟩
      have hne := create_account_ne_notFound kr path name det assets d rng
      rw [hc] at hne
      cases res with
      | error e =>
        have he : e ≠ Err.notFound := by
          intro heq
          rw [heq] at hne
          exact hne rfl
        refine iff_of_false ?_ hrhs
        intro hx
        exact he (Except.error.inj hx)
      | ok acct =>
        refine iff_of_false ?_ hrhs
        intro hx
        exact Except.noConfusion hx
    · simp only [deriveInKeyrings, if_neg h]
      rcases hr : deriveInKeyrings rest root path name det assets d rng with
        ⟨res, d', rng'⟩
      rw [hr] at ih
      cases res with
      | error e =>
        constructor
        · intro hx k hk
          rcases List.mem_cons.mp hk with rfl | hk'
          · exact h
          · exact ih.mp hx k hk'
        · intro hall
          exact ih.mpr (fun k hk => hall k (List.mem_cons_of_mem kr hk))
      | ok p =>
        rcases p with ⟨acc, rest'⟩
        constructor
        · intro hx
          exact Except.noConfusion hx
        · intro hall
          exact Except.noConfusion
            (ih.mpr (fun k hk => hall k (List.mem_cons_of_mem kr hk)))

/-- C10: `Vault::derive` returns `NotFound` exactly when the requested root
is not the identifier of any keyring's master account — in particular when
it identifies an existing sub-account — so derivation can only be rooted at
a keyring master. -/
theorem c10_derive_notFound_iff_no_master (v : Vault)
    (root : XpubIdentifier) (path : DerivationPath) (name : String)
    (details : Option String) (assets : Finset AssetId) (d : SecretKey)
    (rng : Rng) :
    (v.derive root path name details assets d rng).1 = .error .notFound ↔
      ∀ kr ∈ v.keyrings, kr.identifier ≠ root := by
  rw [← deriveInKeyrings_notFound v.keyrings root path name (details.getD "")
    assets d rng]
  simp only [Vault.derive]
  rcases hr : deriveInKeyrings v.keyrings root path name (details.getD "")
      assets d rng with ⟨res, d', rng'⟩
  cases res with
  | error e => simp
  | ok p =>
    rcases p with ⟨acc, krs'⟩
    by_cases hb : v.driver.storeFails
    · simp [Driver.store, hb]
    · simp [Driver.store, hb]

/-- C10 witness: on the concrete vault `vaultB`, whose keyring has a
sub-account at `m/5`, deriving with the sub-account's identifier as the root
fails with `NotFound`. -/
theorem c10_derive_notFound_iff_no_master_witness :
    (vaultB.derive subB5.identifier [7] "n" none ∅ 0 []).1 =
      .error .notFound :=
  (c10_derive_notFound_iff_no_master vaultB subB5.identifier [7] "n" none ∅
    0 []).mpr (by decide)


/-- Helper: per-keyring lookup succeeds exactly when the master or some
sub-account carries the identifier. -/
theorem keyring_account_by_id_isSome (kr : Keyring) (id : XpubIdentifier) :
    (kr.account_by_id id).isSome =
      (kr.identifier == id ||
        kr.sub_accounts.any (fun pa => pa.2.identifier == id)) := by
  unfold Keyring.account_by_id
  by_cases h : kr.identifier = id
  · simp [h]
  · rw [if_neg h, Bool.eq_iff_iff]
    simp [Option.isSome_map, List.find?_isSome, List.any_eq_true, h]

/-- Helper: vault-wide lookup succeeds exactly when `hasAccount` holds. -/
theorem account_by_id_isSome (v : Vault) (id : XpubIdentifier) :
    (v.account_by_id id).isSome = hasAccount v id := by
  unfold Vault.account_by_id hasAccount
  induction v.keyrings with
  | nil => simp
  | cons kr rest ih =>
    rw [List.findSome?_cons, List.any_cons]
    have hk := keyring_account_by_id_isSome kr id
    cases h : kr.account_by_id id with
    | none =>
      rw [h] at hk
      simp only [Option.isSome_none] at hk
      simp [← hk, ih]
    | some a =>
      rw [h] at hk
      simp only [Option.isSome_some] at hk
      simp [← hk]

/-- Helper: the vault lookup comes back empty exactly when `hasAccount` is
false. -/
theorem account_by_id_none (v : Vault) (id : XpubIdentifier) :
    v.account_by_id id = none ↔ hasAccount v id = false := by
  rw [← account_by_id_isSome]
  cases v.account_by_id id <;> simp

/-- Helper: `KeysAccount.sign_digest` never reports `NotFound`. -/
theorem sign_digest_ne_notFound (a : KeysAccount) (dg : Digest)
    (d : SecretKey) (rng : Rng) :
    (a.sign_digest dg d rng).1 ≠ .error .notFound := by
  rcases xprivkey_cases a d rng with h | ⟨k, h⟩ <;>
    simp [KeysAccount.sign_digest, h, rngNext]

/-- C8: the vault methods `xpub`, `xpriv`, `sign_key` and `sign_data` return
`NotFound` exactly when no keyring master account and no sub-account of the
vault carries the requested identifier — so they fail with `NotFound` when
no account matches, and never return `NotFound` when one exists. -/
theorem c8_notFound_characterization (v : Vault) (id : XpubIdentifier)
    (d : SecretKey) (data : List Nat) (rng : Rng) :
    (v.xpub id = .error .notFound ↔ hasAccount v id = false) ∧
    ((v.xpriv id d rng).1 = .error .notFound ↔ hasAccount v id = false) ∧
    ((v.sign_key id d rng).1 = .error .notFound ↔ hasAccount v id = false) ∧
    ((v.sign_data id data d rng).1 = .error .notFound ↔
      hasAccount v id = false) := by
  have hiff := account_by_id_none v id
  cases h : v.account_by_id id with
  | none =>
    have hf : hasAccount v id = false := hiff.mp h
    refine ⟨?_, ?_, ?_, ?_⟩ <;>
      simp [Vault.xpub, Vault.xpriv, Vault.sign_key, Vault.sign_data, h, hf]
  | some a =>
    have ht : ¬ hasAccount v id = false := by
      intro hc
      rw [hiff.mpr hc] at h
      exact Option.noConfusion h
    have hx : (a.xprivkey d rng).1 ≠ Except.error Err.notFound := by
      rcases xprivkey_cases a d rng with hh | ⟨k, hh⟩ <;> simp [hh]
    refine ⟨?_, ?_, ?_, ?_⟩
    · refine iff_of_false ?_ ht
      simp [Vault.xpub, h]
    · refine iff_of_false ?_ ht
      simp only [Vault.xpriv, h]
      exact hx
    · refine iff_of_false ?_ ht
      simp only [Vault.sign_key, h]
      exact sign_digest_ne_notFound a (.sha256OfPubkey a.xpubkey) d rng
    · refine iff_of_false ?_ ht
      simp only [Vault.sign_data, h]
      exact sign_digest_ne_notFound a (.sha256OfData data) d rng

/-- C8 witness: on the concrete vault `vaultC`, an identifier carried by no
account makes `xpub` (and, at a matching identifier, does not make `xpriv`)
return `NotFound`. -/
theorem c8_notFound_characterization_witness :
    vaultC.xpub ⟨⟨999, []⟩⟩ = .error .notFound ∧
    ¬ (vaultC.xpriv masterC.identifier 1 [5, 5]).1 = .error .notFound :=
  ⟨(c8_notFound_characterization vaultC ⟨⟨999, []⟩⟩ 0 [] []).1.mpr
      (by decide),
    fun hc =>
      absurd ((c8_notFound_characterization vaultC masterC.identifier 1 []
        [5, 5]).2.1.mp hc) (by decide)⟩

/-- Helper: the last element of a list extended by one element. -/
theorem getLast?_append_singleton (l : List α) (a : α) :
    (l ++ [a]).getLast? = some a := by
  rw [List.getLast?_append_cons]
  rfl

/-- C6 (amended): when the driver's store fails, `seed` and `derive` return
an error and the log of successfully stored sequences is unchanged — but the
in-memory sequence keeps the mutation made before the store call: `seed`
leaves the freshly created keyring appended. -/
theorem c6_store_failure_keeps_mutation (v : Vault) (name : String)
    (description : Option String) (chain : Chain)
    (application : KeyApplication) (ek : PublicKey)
    (root : XpubIdentifier) (path : DerivationPath) (nm : String)
    (det : Option String) (assets : Finset AssetId) (d : SecretKey)
    (rng : Rng) (h : v.driver.storeFails = true) :
    exceptOk (v.seed name description chain application ek rng).1 = false ∧
    (v.seed name description chain application ek rng).2.1.driver.stored =
      v.driver.stored ∧
    (∃ kr, (v.seed name description chain application ek rng).2.1.keyrings =
      v.keyrings ++ [kr]) ∧
    exceptOk (v.derive root path nm det assets d rng).1 = false ∧
    (v.derive root path nm det assets d rng).2.1.driver.stored =
      v.driver.stored := by
  refine ⟨?_, ?_, ?_, ?_, ?_⟩
  · simp [Vault.seed, Keyring.with, KeysAccount.with, rngNext, Driver.store,
      h, exceptOk]
  · simp [Vault.seed, Keyring.with, KeysAccount.with, rngNext, Driver.store,
      h]
  · simp [Vault.seed, Keyring.with, KeysAccount.with, rngNext,
      Driver.store, h]
  · rcases hr : deriveInKeyrings v.keyrings root path nm (det.getD "")
        assets d rng with ⟨res, d', rng'⟩
    cases res with
    | error e => simp [Vault.derive, hr, exceptOk]
    | ok p =>
      rcases p with ⟨acc, krs'⟩
      simp [Vault.derive, hr, Driver.store, h, exceptOk]
  · rcases hr : deriveInKeyrings v.keyrings root path nm (det.getD "")
        assets d rng with ⟨res, d', rng'⟩
    cases res with
    | error e => simp [Vault.derive, hr]
    | ok p =>
      rcases p with ⟨acc, krs'⟩
      simp [Vault.derive, hr, Driver.store, h]

/-- C6 witness: the concrete failing-driver vault, with the hypothesis
discharged and the conclusion instantiated. -/
theorem c6_store_failure_keeps_mutation_witness :
    failVault.driver.storeFails = true ∧
    exceptOk (failVault.seed "A" none 0 0 ⟨1⟩ [5, 5, 5, 5, 5]).1 = false ∧
    (failVault.seed "A" none 0 0 ⟨1⟩ [5, 5, 5, 5, 5]).2.1.driver.stored =
      failVault.driver.stored ∧
    (∃ kr, (failVault.seed "A" none 0 0 ⟨1⟩ [5, 5, 5, 5, 5]).2.1.keyrings =
      failVault.keyrings ++ [kr]) ∧
    exceptOk (failVault.derive ⟨⟨0, []⟩⟩ [0] "n" none ∅ 0 []).1 = false ∧
    (failVault.derive ⟨⟨0, []⟩⟩ [0] "n" none ∅ 0 []).2.1.driver.stored =
      failVault.driver.stored :=
  ⟨rfl, c6_store_failure_keeps_mutation failVault "A" none 0 0 ⟨1⟩ ⟨⟨0, []⟩⟩
    [0] "n" none ∅ 0 [5, 5, 5, 5, 5] rfl⟩

/-- C7: whenever `seed` or `derive` returns `Ok`, the driver's store has been
invoked with the vault's final in-memory keyring sequence (for `seed`, the
old sequence plus exactly the new keyring) before the method returns: the
last successfully stored sequence is the in-memory one. -/
theorem c7_store_invoked_before_ok (v : Vault) (name : String)
    (description : Option String) (chain : Chain)
    (application : KeyApplication) (ek : PublicKey)
    (root : XpubIdentifier) (path : DerivationPath) (nm : String)
    (det : Option String) (assets : Finset AssetId) (d : SecretKey)
    (rng : Rng) :
    (exceptOk (v.seed name description chain application ek rng).1 = true →
      (v.seed name description chain application ek
          rng).2.1.driver.stored.getLast? =
        some (v.seed name description chain application ek rng).2.1.keyrings ∧
      ∃ kr, (v.seed name description chain application ek rng).2.1.keyrings =
        v.keyrings ++ [kr]) ∧
    (exceptOk (v.derive root path nm det assets d rng).1 = true →
      (v.derive root path nm det assets d
          rng).2.1.driver.stored.getLast? =
        some (v.derive root path nm det assets d rng).2.1.keyrings) := by
  constructor
  · intro hok
    by_cases h : v.driver.storeFails
    · exfalso
      simp [Vault.seed, Keyring.with, KeysAccount.with, rngNext,
        Driver.store, h, exceptOk] at hok
    · constructor
      · simp [Vault.seed, Keyring.with, KeysAccount.with, rngNext,
          Driver.store, h, getLast?_append_singleton]
      · simp [Vault.seed, Keyring.with, KeysAccount.with, rngNext,
          Driver.store, h]
  · intro hok
    rcases hr : deriveInKeyrings v.keyrings root path nm (det.getD "")
        assets d rng with ⟨res, d', rng'⟩
    cases res with
    | error e =>
      exfalso
      simp [Vault.derive, hr, exceptOk] at hok
    | ok p =>
      rcases p with ⟨acc, krs'⟩
      by_cases h : v.driver.storeFails
      · exfalso
        simp [Vault.derive, hr, Driver.store, h, exceptOk] at hok
      · simp [Vault.derive, hr, Driver.store, h, getLast?_append_singleton]

/-- C7 witness: a concrete successful `seed` and a concrete successful
`derive` on `vaultC`, with the success hypotheses discharged by
evaluation. -/
theorem c7_store_invoked_before_ok_witness :
    ((vaultC.seed "A" none 0 0 ⟨1⟩ [5, 5, 5, 5, 5]).2.1.driver.stored.getLast?
        = some (vaultC.seed "A" none 0 0 ⟨1⟩ [5, 5, 5, 5, 5]).2.1.keyrings ∧
      ∃ kr, (vaultC.seed "A" none 0 0 ⟨1⟩ [5, 5, 5, 5, 5]).2.1.keyrings =
        vaultC.keyrings ++ [kr]) ∧
    (vaultC.derive masterC.identifier [0] "n" none ∅ 1
        [5, 5, 5, 5]).2.1.driver.stored.getLast? =
      some (vaultC.derive masterC.identifier [0] "n" none ∅ 1
        [5, 5, 5, 5]).2.1.keyrings :=
  ⟨(c7_store_invoked_before_ok vaultC "A" none 0 0 ⟨1⟩ masterC.identifier
      [0] "n" none ∅ 1 [5, 5, 5, 5, 5]).1 (by decide),
    (c7_store_invoked_before_ok vaultC "A" none 0 0 ⟨1⟩ masterC.identifier
      [0] "n" none ∅ 1 [5, 5, 5, 5]).2 (by decide)⟩
